import Mathlib

/-!
Shallow embedding of the NSkills Stylus token contracts
(`packages/components/erc20-stylus/contract/src/lib.rs` and
`packages/components/erc721-stylus/contract/src/lib.rs`).

Modelling conventions:
* `Address` and `U256` values are `Nat`; the zero address is `0`.
* A Solidity storage mapping is a finite association list with default value
  `0` (or `false`); unwritten slots read as the default, exactly as EVM
  storage does.
* Arithmetic: the contracts use the `+` / `-` operators of
  `alloy_primitives::U256` (ruint).  ruint implements these operators with
  `wrapping_add` / `wrapping_sub`, i.e. arithmetic is modulo `2^256` and
  never traps; we embed them as `uadd` / `usub` below.  Every subtraction in
  the source that is preceded by an explicit `<` guard therefore computes the
  exact difference; unguarded additions and subtractions wrap.
* `msg::sender()` is passed explicitly as a `sender` argument of every public
  operation; the Rust binder `to` is renamed `toAddr` (`to` is a Lean token).
* Event emission (`evm::log`) has no observable effect on storage and is
  omitted.
* Errors (ABI-encoded `Vec<u8>` payloads in the source) are embedded as
  inductive error types carrying the same fields; ad-hoc string errors
  (`"Already initialized".into()` etc.) are kept as their string.
-/

/-- Read a slot of a storage mapping (association list), returning the
default `dflt` for absent keys. -/
def mget [DecidableEq κ] (dflt : ν) : List (κ × ν) → κ → ν
  | [], _ => dflt
  | (k', v) :: t, k => if k' = k then v else mget dflt t k

/-- Write a slot of a storage mapping: overwrite the first binding of the
key, or append a new binding. -/
def mset [DecidableEq κ] : List (κ × ν) → κ → ν → List (κ × ν)
  | [], k, v => [(k, v)]
  | (k', v') :: t, k, v => if k' = k then (k, v) :: t else (k', v') :: mset t k v

/-- Sum of all values stored in a Nat-valued mapping. -/
def msum : List (κ × Nat) → Nat
  | [] => 0
  | (_, v) :: t => v + msum t

instance [DecidableEq ε] [DecidableEq α] : DecidableEq (Except ε α) := fun x y =>
  match x, y with
  | .error e, .error e' =>
      if h : e = e' then isTrue (congrArg Except.error h)
      else isFalse (fun hc => h (Except.error.inj hc))
  | .error _, .ok _ => isFalse (fun hc => Except.noConfusion hc)
  | .ok _, .error _ => isFalse (fun hc => Except.noConfusion hc)
  | .ok a, .ok a' =>
      if h : a = a' then isTrue (congrArg Except.ok h)
      else isFalse (fun hc => h (Except.ok.inj hc))

/-- The U256 modulus. -/
def MOD : Nat := 2 ^ 256

/-- The value `U256::MAX`, the unlimited-allowance sentinel. -/
def UMAX : Nat := MOD - 1

/-- U256 addition (ruint `+`, wrapping). -/
def uadd (a b : Nat) : Nat := (a + b) % MOD

/-- U256 subtraction (ruint `-`, wrapping). -/
def usub (a b : Nat) : Nat := (a + (MOD - b % MOD)) % MOD

-- ===========================================================
-- ERC-20 (erc20-stylus/contract/src/lib.rs)
-- ===========================================================

/-- Errors of the ERC-20 contract (`sol!` error declarations plus ad-hoc
string errors). -/
inductive E20Err
  | InsufficientBalance (fromAddr available required : Nat)
  | InsufficientAllowance (spender available required : Nat)
  | InvalidReceiver (receiver : Nat)
  | InvalidSender (sender : Nat)
  | UnauthorizedAccount (account : Nat)
  | EnforcedPause
  | ExpectedPause
  | StrErr (msg : String)
deriving DecidableEq

/-- Storage layout of `ERC20Token` (`sol_storage!`). -/
structure ERC20State where
  name : String
  symbol : String
  decimals : Nat
  total_supply : Nat
  balances : List (Nat × Nat)
  allowances : List ((Nat × Nat) × Nat)
  owner : Nat
  paused : Bool
  initialized : Bool
deriving DecidableEq

/-- A freshly deployed ERC-20 contract: every storage slot zero. -/
def freshERC20 : ERC20State :=
  { name := "", symbol := "", decimals := 0, total_supply := 0, balances := [],
    allowances := [], owner := 0, paused := false, initialized := false }

def ERC20.require_owner (s : ERC20State) (sender : Nat) : Except E20Err Unit :=
  if sender ≠ s.owner then .error (.UnauthorizedAccount sender) else .ok ()

def ERC20.require_not_paused (s : ERC20State) : Except E20Err Unit :=
  if s.paused then .error .EnforcedPause else .ok ()

def ERC20.require_paused (s : ERC20State) : Except E20Err Unit :=
  if !s.paused then .error .ExpectedPause else .ok ()

/-- Rust `ERC20Token::transfer_internal`. -/
def ERC20.transfer_internal (s : ERC20State) (fromAddr toAddr value : Nat) :
    Except E20Err ERC20State :=
  if fromAddr = 0 then .error (.InvalidSender fromAddr)
  else if toAddr = 0 then .error (.InvalidReceiver toAddr)
  else
    let from_balance := mget 0 s.balances fromAddr
    if from_balance < value then
      .error (.InsufficientBalance fromAddr from_balance value)
    else
      let s := { s with balances := mset s.balances fromAddr (usub from_balance value) }
      let to_balance := mget 0 s.balances toAddr
      .ok { s with balances := mset s.balances toAddr (uadd to_balance value) }

/-- Rust `ERC20Token::approve_internal`. -/
def ERC20.approve_internal (s : ERC20State) (owner spender value : Nat) :
    Except E20Err ERC20State :=
  if owner = 0 then .error (.InvalidSender owner)
  else if spender = 0 then .error (.InvalidReceiver spender)
  else .ok { s with allowances := mset s.allowances (owner, spender) value }

/-- Rust `ERC20Token::spend_allowance`. -/
def ERC20.spend_allowance (s : ERC20State) (owner spender value : Nat) :
    Except E20Err ERC20State :=
  let current_allowance := mget 0 s.allowances (owner, spender)
  if current_allowance ≠ UMAX then
    if current_allowance < value then
      .error (.InsufficientAllowance spender current_allowance value)
    else
      .ok { s with allowances := mset s.allowances (owner, spender) (usub current_allowance value) }
  else .ok s

/-- Rust `ERC20Token::mint_internal`. -/
def ERC20.mint_internal (s : ERC20State) (toAddr amount : Nat) :
    Except E20Err ERC20State :=
  if toAddr = 0 then .error (.InvalidReceiver toAddr)
  else
    let s := { s with total_supply := uadd s.total_supply amount }
    let balance := mget 0 s.balances toAddr
    .ok { s with balances := mset s.balances toAddr (uadd balance amount) }

/-- Rust `ERC20Token::burn_internal`. -/
def ERC20.burn_internal (s : ERC20State) (fromAddr amount : Nat) :
    Except E20Err ERC20State :=
  if fromAddr = 0 then .error (.InvalidSender fromAddr)
  else
    let balance := mget 0 s.balances fromAddr
    if balance < amount then
      .error (.InsufficientBalance fromAddr balance amount)
    else
      let s := { s with balances := mset s.balances fromAddr (usub balance amount) }
      .ok { s with total_supply := usub s.total_supply amount }

/-- Rust `ERC20Token::initialize` (named `init` here because `initialize` is a
Lean keyword).  The Rust source also emits an `OwnershipTransferred` event. -/
def ERC20.init (s : ERC20State) (name symbol : String) (decimals initial_supply owner : Nat) :
    Except E20Err ERC20State :=
  if s.initialized then .error (.StrErr "Already initialized")
  else
    let s := { s with name := name, symbol := symbol, decimals := decimals,
                      owner := owner, paused := false, initialized := true }
    if 0 < initial_supply then ERC20.mint_internal s owner initial_supply
    else .ok s

/-- Rust `ERC20Token::transfer` (the Rust method returns `Ok(true)`; the boolean
carries no information, so the embedding returns the state). -/
def ERC20.transfer (s : ERC20State) (sender toAddr value : Nat) :
    Except E20Err ERC20State := do
  let _ ← ERC20.require_not_paused s
  ERC20.transfer_internal s sender toAddr value

/-- Rust `ERC20Token::approve`. -/
def ERC20.approve (s : ERC20State) (sender spender value : Nat) :
    Except E20Err ERC20State :=
  ERC20.approve_internal s sender spender value

/-- Rust `ERC20Token::transfer_from`. -/
def ERC20.transfer_from (s : ERC20State) (sender fromAddr toAddr value : Nat) :
    Except E20Err ERC20State := do
  let _ ← ERC20.require_not_paused s
  let s ← ERC20.spend_allowance s fromAddr sender value
  ERC20.transfer_internal s fromAddr toAddr value

/-- Rust `ERC20Token::increase_allowance`. -/
def ERC20.increase_allowance (s : ERC20State) (sender spender added_value : Nat) :
    Except E20Err ERC20State :=
  let current_allowance := mget 0 s.allowances (sender, spender)
  ERC20.approve_internal s sender spender (uadd current_allowance added_value)

/-- Rust `ERC20Token::decrease_allowance`. -/
def ERC20.decrease_allowance (s : ERC20State) (sender spender subtracted_value : Nat) :
    Except E20Err ERC20State :=
  let current_allowance := mget 0 s.allowances (sender, spender)
  if current_allowance < subtracted_value then
    .error (.InsufficientAllowance spender current_allowance subtracted_value)
  else
    ERC20.approve_internal s sender spender (usub current_allowance subtracted_value)

/-- Rust `ERC20Token::mint`. -/
def ERC20.mint (s : ERC20State) (sender toAddr amount : Nat) :
    Except E20Err ERC20State := do
  let _ ← ERC20.require_owner s sender
  ERC20.mint_internal s toAddr amount

/-- Rust `ERC20Token::burn`. -/
def ERC20.burn (s : ERC20State) (sender amount : Nat) :
    Except E20Err ERC20State := do
  let _ ← ERC20.require_not_paused s
  ERC20.burn_internal s sender amount

/-- Rust `ERC20Token::burn_from`. -/
def ERC20.burn_from (s : ERC20State) (sender fromAddr amount : Nat) :
    Except E20Err ERC20State := do
  let _ ← ERC20.require_not_paused s
  let s ← ERC20.spend_allowance s fromAddr sender amount
  ERC20.burn_internal s fromAddr amount

/-- Rust `ERC20Token::pause`. -/
def ERC20.pause (s : ERC20State) (sender : Nat) : Except E20Err ERC20State := do
  let _ ← ERC20.require_owner s sender
  let _ ← ERC20.require_not_paused s
  .ok { s with paused := true }

/-- Rust `ERC20Token::unpause`. -/
def ERC20.unpause (s : ERC20State) (sender : Nat) : Except E20Err ERC20State := do
  let _ ← ERC20.require_owner s sender
  let _ ← ERC20.require_paused s
  .ok { s with paused := false }

/-- Rust `ERC20Token::transfer_ownership`. -/
def ERC20.transfer_ownership (s : ERC20State) (sender new_owner : Nat) :
    Except E20Err ERC20State := do
  let _ ← ERC20.require_owner s sender
  if new_owner = 0 then .error (.StrErr "New owner is zero address")
  else .ok { s with owner := new_owner }

/-- Rust `ERC20Token::renounce_ownership`. -/
def ERC20.renounce_ownership (s : ERC20State) (sender : Nat) :
    Except E20Err ERC20State := do
  let _ ← ERC20.require_owner s sender
  .ok { s with owner := 0 }

-- ===========================================================
-- ERC-721 (erc721-stylus/contract/src/lib.rs)
-- ===========================================================

/-- Errors of the ERC-721 contract (`sol!` error declarations plus ad-hoc
string errors). -/
inductive E721Err
  | ERC721InvalidOwner (owner : Nat)
  | ERC721NonexistentToken (tokenId : Nat)
  | ERC721IncorrectOwner (sender tokenId owner : Nat)
  | ERC721InvalidSender (sender : Nat)
  | ERC721InvalidReceiver (receiver : Nat)
  | ERC721InsufficientApproval (operator tokenId : Nat)
  | ERC721InvalidApprover (approver : Nat)
  | ERC721InvalidOperator (operator : Nat)
  | UnauthorizedAccount (account : Nat)
  | EnforcedPause
  | ExpectedPause
  | MaxSupplyReached (maxSupply : Nat)
  | StrErr (msg : String)
deriving DecidableEq

/-- Storage layout of `ERC721Token` (`sol_storage!`).  `owned_tokens` is the
nested mapping `address => (position => tokenId)`, keyed here by the pair
`(owner, position)`. -/
structure ERC721State where
  name : String
  symbol : String
  base_uri : String
  total_supply : Nat
  max_supply : Nat
  next_token_id : Nat
  owners : List (Nat × Nat)
  balances : List (Nat × Nat)
  token_approvals : List (Nat × Nat)
  operator_approvals : List ((Nat × Nat) × Bool)
  all_tokens_index : List (Nat × Nat)
  owned_tokens : List ((Nat × Nat) × Nat)
  owned_tokens_index : List (Nat × Nat)
  owner : Nat
  paused : Bool
  initialized : Bool
deriving DecidableEq

/-- A freshly deployed ERC-721 contract: every storage slot zero. -/
def freshERC721 : ERC721State :=
  { name := "", symbol := "", base_uri := "", total_supply := 0, max_supply := 0,
    next_token_id := 0, owners := [], balances := [], token_approvals := [],
    operator_approvals := [], all_tokens_index := [], owned_tokens := [],
    owned_tokens_index := [], owner := 0, paused := false, initialized := false }

def ERC721.require_owner (s : ERC721State) (sender : Nat) : Except E721Err Unit :=
  if sender ≠ s.owner then .error (.UnauthorizedAccount sender) else .ok ()

def ERC721.require_not_paused (s : ERC721State) : Except E721Err Unit :=
  if s.paused then .error .EnforcedPause else .ok ()

def ERC721.require_paused (s : ERC721State) : Except E721Err Unit :=
  if !s.paused then .error .ExpectedPause else .ok ()

def ERC721.require_token_exists (s : ERC721State) (token_id : Nat) : Except E721Err Unit :=
  if mget 0 s.owners token_id = 0 then .error (.ERC721NonexistentToken token_id)
  else .ok ()

/-- Rust `ERC721Token::owner_of`. -/
def ERC721.owner_of (s : ERC721State) (token_id : Nat) : Except E721Err Nat :=
  let owner := mget 0 s.owners token_id
  if owner = 0 then .error (.ERC721NonexistentToken token_id) else .ok owner

/-- Rust `ERC721Token::is_approved_for_all`. -/
def ERC721.is_approved_for_all (s : ERC721State) (owner operator : Nat) : Bool :=
  mget false s.operator_approvals (owner, operator)

/-- Rust `ERC721Token::is_approved_or_owner`. -/
def ERC721.is_approved_or_owner (s : ERC721State) (spender token_id : Nat) :
    Except E721Err Bool := do
  let owner ← ERC721.owner_of s token_id
  .ok (spender = owner || ERC721.is_approved_for_all s owner spender ||
       mget 0 s.token_approvals token_id = spender)

/-- Rust `ERC721Token::add_token_to_owner_enumeration`. -/
def ERC721.add_token_to_owner_enumeration (s : ERC721State) (owner token_id : Nat) :
    ERC721State :=
  let length := mget 0 s.balances owner
  { s with owned_tokens := mset s.owned_tokens (owner, usub length 1) token_id,
           owned_tokens_index := mset s.owned_tokens_index token_id (usub length 1) }

/-- Rust `ERC721Token::remove_token_from_owner_enumeration`.  The source comment
says "Balance already decremented". -/
def ERC721.remove_token_from_owner_enumeration (s : ERC721State) (owner token_id : Nat) :
    ERC721State :=
  let last_index := mget 0 s.balances owner
  let token_index := mget 0 s.owned_tokens_index token_id
  let s :=
    if token_index ≠ last_index then
      let last_token_id := mget 0 s.owned_tokens (owner, last_index)
      { s with owned_tokens := mset s.owned_tokens (owner, token_index) last_token_id,
               owned_tokens_index := mset s.owned_tokens_index last_token_id token_index }
    else s
  { s with owned_tokens := mset s.owned_tokens (owner, last_index) 0,
           owned_tokens_index := mset s.owned_tokens_index token_id 0 }

/-- Rust `ERC721Token::transfer_internal`. -/
def ERC721.transfer_internal (s : ERC721State) (fromAddr toAddr token_id : Nat) :
    Except E721Err ERC721State := do
  let owner ← ERC721.owner_of s token_id
  if owner ≠ fromAddr then .error (.ERC721IncorrectOwner fromAddr token_id owner)
  else if toAddr = 0 then .error (.ERC721InvalidReceiver toAddr)
  else
    let s := { s with token_approvals := mset s.token_approvals token_id 0 }
    let from_balance := mget 0 s.balances fromAddr
    let s := { s with balances := mset s.balances fromAddr (usub from_balance 1) }
    let to_balance := mget 0 s.balances toAddr
    let s := { s with balances := mset s.balances toAddr (uadd to_balance 1) }
    let s := { s with owners := mset s.owners token_id toAddr }
    let s := ERC721.remove_token_from_owner_enumeration s fromAddr token_id
    let s := ERC721.add_token_to_owner_enumeration s toAddr token_id
    .ok s

/-- Rust `ERC721Token::mint_internal`. -/
def ERC721.mint_internal (s : ERC721State) (toAddr token_id : Nat) :
    Except E721Err ERC721State :=
  if toAddr = 0 then .error (.ERC721InvalidReceiver toAddr)
  else
    let s := { s with owners := mset s.owners token_id toAddr }
    let to_balance := mget 0 s.balances toAddr
    let s := { s with balances := mset s.balances toAddr (uadd to_balance 1) }
    let s := { s with total_supply := uadd s.total_supply 1 }
    let s := ERC721.add_token_to_owner_enumeration s toAddr token_id
    .ok s

/-- Rust `ERC721Token::burn_internal`. -/
def ERC721.burn_internal (s : ERC721State) (token_id : Nat) :
    Except E721Err ERC721State := do
  let owner ← ERC721.owner_of s token_id
  let s := { s with token_approvals := mset s.token_approvals token_id 0 }
  let balance := mget 0 s.balances owner
  let s := { s with balances := mset s.balances owner (usub balance 1) }
  let s := { s with total_supply := usub s.total_supply 1 }
  let s := { s with owners := mset s.owners token_id 0 }
  let s := ERC721.remove_token_from_owner_enumeration s owner token_id
  .ok s

/-- Rust `ERC721Token::initialize` (named `init` here because `initialize` is a
Lean keyword). -/
def ERC721.init (s : ERC721State) (name symbol base_uri : String)
    (max_supply owner : Nat) : Except E721Err ERC721State :=
  if s.initialized then .error (.StrErr "Already initialized")
  else
    .ok { s with name := name, symbol := symbol, base_uri := base_uri,
                 max_supply := max_supply, owner := owner, paused := false,
                 next_token_id := 1, initialized := true }

/-- Rust `ERC721Token::balance_of`. -/
def ERC721.balance_of (s : ERC721State) (owner : Nat) : Except E721Err Nat :=
  if owner = 0 then .error (.ERC721InvalidOwner owner)
  else .ok (mget 0 s.balances owner)

/-- Rust `ERC721Token::approve`. -/
def ERC721.approve (s : ERC721State) (sender toAddr token_id : Nat) :
    Except E721Err ERC721State := do
  let owner ← ERC721.owner_of s token_id
  if toAddr = owner then .error (.StrErr "Cannot approve to current owner")
  else if sender ≠ owner ∧ ¬ ERC721.is_approved_for_all s owner sender then
    .error (.ERC721InvalidApprover sender)
  else .ok { s with token_approvals := mset s.token_approvals token_id toAddr }

/-- Rust `ERC721Token::set_approval_for_all`. -/
def ERC721.set_approval_for_all (s : ERC721State) (sender operator : Nat)
    (approved : Bool) : Except E721Err ERC721State :=
  if operator = 0 then .error (.ERC721InvalidOperator operator)
  else if operator = sender then .error (.StrErr "Cannot set approval for self")
  else .ok { s with operator_approvals := mset s.operator_approvals (sender, operator) approved }

/-- Rust `ERC721Token::transfer_from`. -/
def ERC721.transfer_from (s : ERC721State) (sender fromAddr toAddr token_id : Nat) :
    Except E721Err ERC721State := do
  let _ ← ERC721.require_not_paused s
  let ok ← ERC721.is_approved_or_owner s sender token_id
  if !ok then .error (.ERC721InsufficientApproval sender token_id)
  else ERC721.transfer_internal s fromAddr toAddr token_id

/-- Rust `ERC721Token::safe_transfer_from`. -/
def ERC721.safe_transfer_from (s : ERC721State) (sender fromAddr toAddr token_id : Nat) :
    Except E721Err ERC721State :=
  ERC721.transfer_from s sender fromAddr toAddr token_id

/-- Rust `ERC721Token::mint`: returns the assigned token id together with the new
state. -/
def ERC721.mint (s : ERC721State) (sender toAddr : Nat) :
    Except E721Err (Nat × ERC721State) := do
  let _ ← ERC721.require_owner s sender
  let _ ← ERC721.require_not_paused s
  let max_supply := s.max_supply
  let current_supply := s.total_supply
  if 0 < max_supply ∧ max_supply ≤ current_supply then
    .error (.MaxSupplyReached max_supply)
  else
    let token_id := s.next_token_id
    let s := { s with next_token_id := uadd token_id 1 }
    let s ← ERC721.mint_internal s toAddr token_id
    .ok (token_id, s)

/-- The `for _ in 0..count_usize` loop body of `ERC721Token::mint_batch`,
iterated `n` times. -/
def ERC721.mint_batch_loop (toAddr : Nat) :
    Nat → ERC721State → Except E721Err (List Nat × ERC721State)
  | 0, s => .ok ([], s)
  | n + 1, s =>
    let token_id := s.next_token_id
    let s := { s with next_token_id := uadd token_id 1 }
    match ERC721.mint_internal s toAddr token_id with
    | .error e => .error e
    | .ok s =>
      match ERC721.mint_batch_loop toAddr n s with
      | .error e => .error e
      | .ok (ids, s) => .ok (token_id :: ids, s)

/-- Rust `ERC721Token::mint_batch`.  `count.try_into().unwrap_or(0)` converts the
`U256` count to `usize`; on the wasm32 deployment target `usize` is 32 bits,
so counts of `2^32` or more convert to `0`. -/
def ERC721.mint_batch (s : ERC721State) (sender toAddr count : Nat) :
    Except E721Err (List Nat × ERC721State) := do
  let _ ← ERC721.require_owner s sender
  let _ ← ERC721.require_not_paused s
  let max_supply := s.max_supply
  let current_supply := s.total_supply
  if 0 < max_supply ∧ max_supply < uadd current_supply count then
    .error (.MaxSupplyReached max_supply)
  else
    let count_usize := if count < 2 ^ 32 then count else 0
    ERC721.mint_batch_loop toAddr count_usize s

/-- Rust `ERC721Token::burn`. -/
def ERC721.burn (s : ERC721State) (sender token_id : Nat) :
    Except E721Err ERC721State := do
  let _ ← ERC721.require_not_paused s
  let ok ← ERC721.is_approved_or_owner s sender token_id
  if !ok then .error (.ERC721InsufficientApproval sender token_id)
  else ERC721.burn_internal s token_id

/-- Rust `ERC721Token::pause`. -/
def ERC721.pause (s : ERC721State) (sender : Nat) : Except E721Err ERC721State := do
  let _ ← ERC721.require_owner s sender
  let _ ← ERC721.require_not_paused s
  .ok { s with paused := true }

/-- Rust `ERC721Token::unpause`. -/
def ERC721.unpause (s : ERC721State) (sender : Nat) : Except E721Err ERC721State := do
  let _ ← ERC721.require_owner s sender
  let _ ← ERC721.require_paused s
  .ok { s with paused := false }

/-- Rust `ERC721Token::set_base_uri`. -/
def ERC721.set_base_uri (s : ERC721State) (sender : Nat) (new_base_uri : String) :
    Except E721Err ERC721State := do
  let _ ← ERC721.require_owner s sender
  .ok { s with base_uri := new_base_uri }

/-- Rust `ERC721Token::transfer_ownership`. -/
def ERC721.transfer_ownership (s : ERC721State) (sender new_owner : Nat) :
    Except E721Err ERC721State := do
  let _ ← ERC721.require_owner s sender
  if new_owner = 0 then .error (.StrErr "New owner is zero address")
  else .ok { s with owner := new_owner }

/-- Rust `ERC721Token::renounce_ownership`. -/
def ERC721.renounce_ownership (s : ERC721State) (sender : Nat) :
    Except E721Err ERC721State := do
  let _ ← ERC721.require_owner s sender
  .ok { s with owner := 0 }

/-- Rust `ERC721Token::token_by_index`. -/
def ERC721.token_by_index (s : ERC721State) (index : Nat) : Except E721Err Nat :=
  if s.total_supply ≤ index then .error (.StrErr "Index out of bounds")
  else .ok (uadd index 1)

/-- Rust `ERC721Token::token_of_owner_by_index`. -/
def ERC721.token_of_owner_by_index (s : ERC721State) (owner index : Nat) :
    Except E721Err Nat :=
  let balance := mget 0 s.balances owner
  if balance ≤ index then .error (.StrErr "Index out of bounds")
  else .ok (mget 0 s.owned_tokens (owner, index))

-- ===========================================================
-- Facade: the public operation sets of both contracts
-- ===========================================================

/-- The mutating public operations of `ERC20Token` (its `&mut self` methods;
`&self` view methods cannot write storage).  `initialize` is the constructor
call. -/
inductive E20Op
  | init (name symbol : String) (decimals initial_supply owner : Nat)
  | transfer (sender toAddr value : Nat)
  | approve (sender spender value : Nat)
  | transfer_from (sender fromAddr toAddr value : Nat)
  | increase_allowance (sender spender added_value : Nat)
  | decrease_allowance (sender spender subtracted_value : Nat)
  | mint (sender toAddr amount : Nat)
  | burn (sender amount : Nat)
  | burn_from (sender fromAddr amount : Nat)
  | pause (sender : Nat)
  | unpause (sender : Nat)
  | transfer_ownership (sender new_owner : Nat)
  | renounce_ownership (sender : Nat)

/-- Dispatch an ERC-20 public operation (return values other than the state
are dropped). -/
def E20Op.exec : E20Op → ERC20State → Except E20Err ERC20State
  | .init n sy d i o, s => ERC20.init s n sy d i o
  | .transfer sender t v, s => ERC20.transfer s sender t v
  | .approve sender sp v, s => ERC20.approve s sender sp v
  | .transfer_from sender f t v, s => ERC20.transfer_from s sender f t v
  | .increase_allowance sender sp v, s => ERC20.increase_allowance s sender sp v
  | .decrease_allowance sender sp v, s => ERC20.decrease_allowance s sender sp v
  | .mint sender t v, s => ERC20.mint s sender t v
  | .burn sender v, s => ERC20.burn s sender v
  | .burn_from sender f v, s => ERC20.burn_from s sender f v
  | .pause sender, s => ERC20.pause s sender
  | .unpause sender, s => ERC20.unpause s sender
  | .transfer_ownership sender o, s => ERC20.transfer_ownership s sender o
  | .renounce_ownership sender, s => ERC20.renounce_ownership s sender

/-- Modelled from the spec: the execution environment's entrypoint wrapper is
not part of `src/` — per the spec, "Failure aborts the entire operation with
no partial state change observable afterward (all side effects ... are
conditioned on success)" and "every error aborts the current operation
immediately with zero state mutation".  The storage state observable after a
call is therefore the new state on success and the unchanged pre-state on
error (the host reverts the call's writes). -/
def E20Op.post (op : E20Op) (s : ERC20State) : ERC20State :=
  match op.exec s with
  | .ok s' => s'
  | .error _ => s

/-- Run a sequence of ERC-20 public operations, stopping at the first
error. -/
def E20Op.run : List E20Op → ERC20State → Except E20Err ERC20State
  | [], s => .ok s
  | op :: t, s =>
    match op.exec s with
    | .error e => .error e
    | .ok s' => E20Op.run t s'

/-- The mutating public operations of `ERC721Token`. -/
inductive E721Op
  | init (name symbol base_uri : String) (max_supply owner : Nat)
  | approve (sender toAddr token_id : Nat)
  | set_approval_for_all (sender operator : Nat) (approved : Bool)
  | transfer_from (sender fromAddr toAddr token_id : Nat)
  | safe_transfer_from (sender fromAddr toAddr token_id : Nat)
  | mint (sender toAddr : Nat)
  | mint_batch (sender toAddr count : Nat)
  | burn (sender token_id : Nat)
  | pause (sender : Nat)
  | unpause (sender : Nat)
  | set_base_uri (sender : Nat) (new_base_uri : String)
  | transfer_ownership (sender new_owner : Nat)
  | renounce_ownership (sender : Nat)

/-- Dispatch an ERC-721 public operation (return values other than the state
are dropped). -/
def E721Op.exec : E721Op → ERC721State → Except E721Err ERC721State
  | .init n sy b m o, s => ERC721.init s n sy b m o
  | .approve sender t tid, s => ERC721.approve s sender t tid
  | .set_approval_for_all sender op ap, s => ERC721.set_approval_for_all s sender op ap
  | .transfer_from sender f t tid, s => ERC721.transfer_from s sender f t tid
  | .safe_transfer_from sender f t tid, s => ERC721.safe_transfer_from s sender f t tid
  | .mint sender t, s =>
    match ERC721.mint s sender t with
    | .error e => .error e
    | .ok (_, s') => .ok s'
  | .mint_batch sender t c, s =>
    match ERC721.mint_batch s sender t c with
    | .error e => .error e
    | .ok (_, s') => .ok s'
  | .burn sender tid, s => ERC721.burn s sender tid
  | .pause sender, s => ERC721.pause s sender
  | .unpause sender, s => ERC721.unpause s sender
  | .set_base_uri sender b, s => ERC721.set_base_uri s sender b
  | .transfer_ownership sender o, s => ERC721.transfer_ownership s sender o
  | .renounce_ownership sender, s => ERC721.renounce_ownership s sender

/-- Modelled from the spec: same entrypoint revert semantics as `E20Op.post`
(the host reverts all storage writes of a call that returns an error). -/
def E721Op.post (op : E721Op) (s : ERC721State) : ERC721State :=
  match op.exec s with
  | .ok s' => s'
  | .error _ => s

/-- Run a sequence of ERC-721 public operations, stopping at the first
error. -/
def E721Op.run : List E721Op → ERC721State → Except E721Err ERC721State
  | [], s => .ok s
  | op :: t, s =>
    match op.exec s with
    | .error e => .error e
    | .ok s' => E721Op.run t s'

-- ===========================================================
-- Claim-specific definitions
-- ===========================================================

/-- The enumeration-consistency invariant of the spec: every owner's balance
bounds a dense, index-consistent owned-token sequence. -/
def enumConsistent (s : ERC721State) : Prop :=
  ∀ a p, p < mget 0 s.balances a →
    mget 0 s.owned_tokens_index (mget 0 s.owned_tokens (a, p)) = p

/-- C1 trace: initialize (owner 10, unlimited supply), mint ids 1,2,3 to
address 1, then two self-transfers (from == to == 1) of ids 2 and 1. -/
def c1ops : List E721Op :=
  [.init "N" "N" "" 0 10, .mint 10 1, .mint 10 1, .mint 10 1,
   .transfer_from 1 1 1 2, .transfer_from 1 1 1 1]

/-- The state reached by `c1ops` (the trace succeeds; the fallback branch is
never taken). -/
def c1final : ERC721State :=
  match E721Op.run c1ops freshERC721 with
  | .ok s => s
  | .error _ => freshERC721

/-- C2 trace: initialize, mint id 1 to address 1, mint id 2 to address 1,
then address 1 burns id 1. -/
def c2ops : List E721Op :=
  [.init "N" "N" "" 0 10, .mint 10 1, .mint 10 1, .burn 1 1]

/-- The state reached by the first `n` operations of `c2ops`. -/
def c2after (n : Nat) : ERC721State :=
  match E721Op.run (c2ops.take n) freshERC721 with
  | .ok s => s
  | .error _ => freshERC721

/-- C10 trace: initialize, mint ids 1,2,3 to address 1, then burn id 2. -/
def c10ops : List E721Op :=
  [.init "N" "N" "" 0 10, .mint 10 1, .mint 10 1, .mint 10 1, .burn 1 2]

/-- The state reached by `c10ops`. -/
def c10final : ERC721State :=
  match E721Op.run c10ops freshERC721 with
  | .ok s => s
  | .error _ => freshERC721

/-- C3 counterexample trace: initialize with owner 10 and zero initial
supply, then the owner mints `U256::MAX` tokens to address 1 and 2 tokens to
address 2 (the second mint overflows `total_supply`). -/
def c3ops : List E20Op :=
  [.init "T" "T" 18 0 10, .mint 10 1 UMAX, .mint 10 2 2]

/-- The state reached by `c3ops`. -/
def c3final : ERC20State :=
  match E20Op.run c3ops freshERC20 with
  | .ok s => s
  | .error _ => freshERC20

/-- States of the fungible ledger reachable from an empty ledger by the
mint / burn / transfer operations (amounts are U256 values, hence `< MOD`). -/
inductive Reach20 : ERC20State → Prop
  | base : Reach20 freshERC20
  | mint (s : ERC20State) (toAddr a : Nat) (s' : ERC20State) (ha : a < MOD)
      (hs : Reach20 s) (h : ERC20.mint_internal s toAddr a = .ok s') : Reach20 s'
  | burn (s : ERC20State) (fromAddr a : Nat) (s' : ERC20State) (ha : a < MOD)
      (hs : Reach20 s) (h : ERC20.burn_internal s fromAddr a = .ok s') : Reach20 s'
  | tr (s : ERC20State) (fromAddr toAddr v : Nat) (s' : ERC20State) (hv : v < MOD)
      (hs : Reach20 s) (h : ERC20.transfer_internal s fromAddr toAddr v = .ok s') : Reach20 s'

/-- Iterated `spend_allowance` for a list of spend amounts. -/
def spendMany (owner spender : Nat) : ERC20State → List Nat → Except E20Err ERC20State
  | s, [] => .ok s
  | s, v :: vs =>
    match ERC20.spend_allowance s owner spender v with
    | .error e => .error e
    | .ok s' => spendMany owner spender s' vs


/-- C6 counterexample state: address 1 holds 2 tokens, address 2 holds
`U256::MAX` tokens. -/
def c6state : ERC20State := { freshERC20 with balances := [(1, 2), (2, UMAX)] }

/-- C7 counterexample state: total supply `U256::MAX`, and owner 1 has
granted spender 2 an allowance of `U256::MAX`. -/
def c7state : ERC20State :=
  { freshERC20 with total_supply := UMAX, allowances := [((1, 2), UMAX)] }

/-- C7 counterexample state for the unguarded supply decrement: total supply
1 while address 2 holds 2 tokens (the post-overflow shape reachable by the
C3 trace followed by a transfer). -/
def c7bstate : ERC20State :=
  { freshERC20 with total_supply := 1, balances := [(2, 2)] }

/-- C8 state: a freshly initialized ERC-721 collection, owner 10, unlimited
max supply. -/
def c8state : ERC721State :=
  match ERC721.init freshERC721 "N" "N" "" 0 10 with
  | .ok s => s
  | .error _ => freshERC721

/-- The strengthened induction invariant for C3: the stored supply is a
U256 value, every stored balance is a U256 value, and the sum of balances is
congruent to the supply modulo 2^256. -/
def Inv20 (s : ERC20State) : Prop :=
  s.total_supply < MOD ∧ (∀ k, mget 0 s.balances k < MOD) ∧
  Nat.ModEq MOD (msum s.balances) s.total_supply

/-- The list of `n` consecutive token ids starting at `a`. -/
def idsFrom (a : Nat) : Nat → List Nat
  | 0 => []
  | n + 1 => a :: idsFrom (a + 1) n

-- ===========================================================
-- Helper lemmas
-- ===========================================================

theorem mget_mset_self [DecidableEq κ] (m : List (κ × ν)) (k : κ) (v : ν) (d : ν) :
    mget d (mset m k v) k = v := by
  induction m with
  | nil => simp [mget, mset]
  | cons hd t ih =>
    obtain ⟨k', v'⟩ := hd
    by_cases h : k' = k <;> simp [mget, mset, h, ih]

theorem mget_mset_ne [DecidableEq κ] (m : List (κ × ν)) (k j : κ) (v : ν) (d : ν)
    (hkj : k ≠ j) : mget d (mset m k v) j = mget d m j := by
  have hjk : ¬ k = j := hkj
  induction m with
  | nil => simp [mget, mset, hjk]
  | cons hd t ih =>
    obtain ⟨k', v'⟩ := hd
    by_cases h : k' = k
    · subst h
      simp [mget, mset, hjk]
    · simp only [mset, if_neg h, mget]
      by_cases h2 : k' = j <;> simp [h2, ih]

theorem msum_mset [DecidableEq κ] (m : List (κ × Nat)) (k : κ) (v : Nat) :
    msum (mset m k v) + mget 0 m k = msum m + v := by
  induction m with
  | nil => simp [mget, mset, msum]
  | cons hd t ih =>
    obtain ⟨k', v'⟩ := hd
    by_cases h : k' = k
    · subst h
      simp [mget, mset, msum]
      omega
    · simp [mget, mset, msum, h]
      omega

theorem mget_le_msum [DecidableEq κ] (m : List (κ × Nat)) (k : κ) :
    mget 0 m k ≤ msum m := by
  induction m with
  | nil => simp [mget, msum]
  | cons hd t ih =>
    obtain ⟨k', v'⟩ := hd
    by_cases h : k' = k
    · simp [mget, msum, h]
    · simp [mget, msum, h]
      omega

theorem MOD_pos : 0 < MOD := Nat.pos_pow_of_pos 256 (by omega)

theorem uadd_lt (a b : Nat) : uadd a b < MOD := Nat.mod_lt _ MOD_pos

theorem usub_lt (a b : Nat) : usub a b < MOD := Nat.mod_lt _ MOD_pos

theorem uadd_small {a b : Nat} (h : a + b < MOD) : uadd a b = a + b :=
  Nat.mod_eq_of_lt h

theorem usub_small {a b : Nat} (hba : b ≤ a) (ha : a < MOD) : usub a b = a - b := by
  have hb : b < MOD := lt_of_le_of_lt hba ha
  unfold usub
  rw [Nat.mod_eq_of_lt hb]
  have h1 : a + (MOD - b) = (a - b) + MOD := by omega
  rw [h1, Nat.add_mod_right]
  exact Nat.mod_eq_of_lt (by omega)

-- ===========================================================
-- Claim theorems
-- ===========================================================

/-- C1: the claimed invariant — for every reachable state and owner,
`balances[owner]` bounds a dense owned-token sequence with
`owned_tokens_index[owned_tokens[owner][p]] = p` for every `p < balance` —
is violated by the code: after minting ids 1,2,3 to address 1 and then
executing two transfers with `from == to == 1` (of ids 2 and then 1), the
reachable state has `balances[1] = 3`, `owned_tokens[1][1] = 0` and
`owned_tokens_index[0] = 0 ≠ 1`.  (Self-transfers leave the balance
net-unchanged, breaking `remove_token_from_owner_enumeration`'s "balance
already decremented" assumption.) -/
theorem c1_self_transfer_corrupts_enumeration :
    E721Op.run c1ops freshERC721 = Except.ok c1final ∧
    mget 0 c1final.balances 1 = 3 ∧
    mget 0 c1final.owned_tokens (1, 1) = 0 ∧
    mget 0 c1final.owned_tokens_index 0 = 0 ∧
    ¬ enumConsistent c1final := by
  refine ⟨rfl, by decide, by decide, by decide, fun h => ?_⟩
  have h1 := h 1 1 (by decide)
  have h2 : mget 0 c1final.owned_tokens_index (mget 0 c1final.owned_tokens (1, 1)) = 0 := by
    decide
  omega

/-- C2: from a fresh collection, the owner mints token id 1 to address 1,
then token id 2 to address 1, and address 1 burns id 1: the balance is 1,
the swap-and-pop moved id 2 into position 0, and `owned_tokens_index[2] = 0`. -/
theorem c2_mint_mint_burn_swap_and_pop :
    ERC721.mint (c2after 1) 10 1 = .ok (1, c2after 2) ∧
    ERC721.mint (c2after 2) 10 1 = .ok (2, c2after 3) ∧
    E721Op.run c2ops freshERC721 = Except.ok (c2after 4) ∧
    ERC721.balance_of (c2after 4) 1 = .ok 1 ∧
    mget 0 (c2after 4).owned_tokens (1, 0) = 2 ∧
    mget 0 (c2after 4).owned_tokens_index 2 = 0 :=
  ⟨by decide, by decide, rfl, by decide, by decide, by decide⟩

/-- C10: `token_by_index` returns `index + 1` for every `index <
total_supply`, independently of the `owners` mapping; and on the reachable
state after minting ids 1,2,3 and burning id 2, index 1 is in range yet
`token_by_index` returns id 2, whose owner is the zero address. -/
theorem c10_token_by_index_ignores_ownership (s : ERC721State) (index : Nat)
    (h : index < s.total_supply) (hs : s.total_supply < MOD) :
    ERC721.token_by_index s index = .ok (index + 1) ∧
    (∀ ow : List (Nat × Nat),
       ERC721.token_by_index { s with owners := ow } index =
         ERC721.token_by_index s index) ∧
    E721Op.run c10ops freshERC721 = Except.ok c10final ∧
    1 < c10final.total_supply ∧
    ERC721.token_by_index c10final 1 = .ok 2 ∧
    mget 0 c10final.owners 2 = 0 := by
  refine ⟨?_, fun ow => rfl, rfl, by decide, by decide, by decide⟩
  unfold ERC721.token_by_index
  rw [if_neg (by omega), uadd_small (by omega)]

/-- C10 witness: the general clause applied at the concrete reachable state
`c10final` with index 1. -/
theorem c10_token_by_index_ignores_ownership_witness :
    ERC721.token_by_index c10final 1 = .ok (1 + 1) :=
  (c10_token_by_index_ignores_ownership c10final 1 (by decide) (by decide)).1

/-- C3 counterexample: the conservation claim `total_supply = Σ balances`
fails on a reachable state: after the owner mints `U256::MAX` to address 1
and then 2 to address 2, the stored total supply has wrapped to 1 while the
sum of stored balances is `U256::MAX + 2`. -/
theorem c3_conservation_fails_on_overflow :
    E20Op.run c3ops freshERC20 = Except.ok c3final ∧
    msum c3final.balances ≠ c3final.total_supply :=
  ⟨rfl, by decide⟩

/-- C6 counterexample: in the state where address 2 already holds
`U256::MAX`, a successful transfer of 2 from address 1 to address 2 leaves
address 2 with balance 1, not with its old balance plus 2: the increment is
modulo 2^256, not exact. -/
theorem c6_increment_wraps :
    ERC20.transfer_internal c6state 1 2 2 =
      Except.ok { c6state with balances := [(1, 0), (2, 1)] } ∧
    mget 0 [(1, 0), (2, 1)] 2 ≠ mget 0 c6state.balances 2 + 2 :=
  ⟨by decide, by decide⟩

/-- C6 (amended): `transfer_internal` fails `InvalidSender` iff `from` is
zero, else `InvalidReceiver` iff `to` is zero, else `InsufficientBalance`
with `available = balances[from]`, `required = value` iff
`balances[from] < value`; on success `balances[from]` is decremented by
`value` and `balances[to]` becomes `(balances[to] + value) mod 2^256`
(exact increment whenever it does not overflow), both legs executing even
when `from == to`, in which case every balance is left unchanged. -/
theorem c6_transfer_internal_spec (s : ERC20State) (f t v : Nat)
    (hf : mget 0 s.balances f < MOD) :
    (f = 0 → ERC20.transfer_internal s f t v = .error (.InvalidSender f)) ∧
    (f ≠ 0 → t = 0 → ERC20.transfer_internal s f t v = .error (.InvalidReceiver t)) ∧
    (f ≠ 0 → t ≠ 0 → mget 0 s.balances f < v →
       ERC20.transfer_internal s f t v =
         .error (.InsufficientBalance f (mget 0 s.balances f) v)) ∧
    (f ≠ 0 → t ≠ 0 → v ≤ mget 0 s.balances f →
       ∃ s', ERC20.transfer_internal s f t v = .ok s' ∧
         s'.total_supply = s.total_supply ∧
         (f ≠ t →
            mget 0 s'.balances f = mget 0 s.balances f - v ∧
            mget 0 s'.balances t = (mget 0 s.balances t + v) % MOD ∧
            ∀ k, k ≠ f → k ≠ t → mget 0 s'.balances k = mget 0 s.balances k) ∧
         (f = t → ∀ k, mget 0 s'.balances k = mget 0 s.balances k)) := by
  refine ⟨fun h0 => ?_, fun h0 h1 => ?_, fun h0 h1 h2 => ?_, fun h0 h1 h2 => ?_⟩
  · simp [ERC20.transfer_internal, h0]
  · simp [ERC20.transfer_internal, h0, h1]
  · simp [ERC20.transfer_internal, h0, h1, if_pos h2]
  · have hres : ERC20.transfer_internal s f t v =
        .ok { s with balances :=
          (mset (mset s.balances f (usub (mget 0 s.balances f) v)) t
            (uadd (mget 0 (mset s.balances f (usub (mget 0 s.balances f) v)) t) v)) } := by
      simp [ERC20.transfer_internal, h0, h1, Nat.not_lt.mpr h2]
    refine ⟨_, hres, rfl, ?_, ?_⟩
    · intro hne
      refine ⟨?_, ?_, ?_⟩
      · rw [mget_mset_ne _ t f _ _ (Ne.symm hne), mget_mset_self,
            usub_small h2 hf]
      · rw [mget_mset_self, mget_mset_ne _ f t _ _ hne]
        rfl
      · intro k hkf hkt
        rw [mget_mset_ne _ t k _ _ (Ne.symm hkt), mget_mset_ne _ f k _ _ (Ne.symm hkf)]
    · intro hft
      subst hft
      intro k
      by_cases hk : k = f
      · subst hk
        rw [mget_mset_self, mget_mset_self, usub_small h2 hf]
        simp only [uadd]
        have hkv : mget 0 s.balances k - v + v = mget 0 s.balances k := by omega
        rw [hkv, Nat.mod_eq_of_lt hf]
      · rw [mget_mset_ne _ f k _ _ (fun h => hk h.symm),
            mget_mset_ne _ f k _ _ (fun h => hk h.symm)]

/-- C6 witness: the amended theorem applied at the spec's concrete scenario
(address 1 holds 60, transferring 61 fails with the stated error). -/
theorem c6_transfer_internal_spec_witness :
    ERC20.transfer_internal { freshERC20 with balances := [(1, 60)] } 1 2 61 =
      .error (.InsufficientBalance 1 60 61) :=
  (c6_transfer_internal_spec { freshERC20 with balances := [(1, 60)] } 1 2 61
      (by decide)).2.2.1 (by decide) (by decide) (by decide)

/-- C7 counterexample: with allowance `U256::MAX` for (owner 1, spender 2)
and total supply `U256::MAX`, `increase_allowance(2, 1)` succeeds and stores
the wrapped allowance 0 instead of failing, and `mint_internal(1, 2)`
succeeds and stores the wrapped total supply 1 instead of failing; moreover
an underflowing subtraction also wraps: with total supply 1 and
`balances[2] = 2`, `burn_internal(2, 2)` succeeds and stores the wrapped
total supply `U256::MAX` (the supply decrement at erc20 lib.rs:423 is
unguarded), larger than the supply it started from. -/
theorem c7_overflow_wraps_instead_of_failing :
    ERC20.increase_allowance c7state 1 2 1 =
      .ok { c7state with allowances := [((1, 2), 0)] } ∧
    ERC20.mint_internal c7state 1 2 =
      .ok { c7state with total_supply := 1, balances := [(1, 2)] } ∧
    ERC20.burn_internal c7bstate 2 2 =
      .ok { c7bstate with total_supply := UMAX, balances := [(2, 0)] } ∧
    c7bstate.total_supply < UMAX :=
  ⟨by decide, by decide, by decide, by decide⟩

/-- C7 (amended): no U256 arithmetic in the contract traps.  Additions wrap
modulo 2^256 and the operations succeed storing the wrapped value
(`increase_allowance` stores `(a + added) mod 2^256`, `mint_internal`
stores the wrapped supply and balance).  The three subtractions on balances
and allowances (`transfer_internal`, `decrease_allowance` /
`spend_allowance`, and `burn_internal`'s balance leg) are guarded by
explicit comparisons, so those underflow attempts fail
(`InsufficientAllowance` / `InsufficientBalance`) rather than wrap; but
`burn_internal`'s `total_supply - amount` is unguarded, so when
`balances[from] ≥ amount` the burn succeeds and stores
`(total_supply + 2^256 - amount) mod 2^256`, which wraps whenever
`amount > total_supply`. -/
theorem c7_wrapping_arithmetic (s : ERC20State) (o sp t a amt : Nat)
    (ho : o ≠ 0) (hsp : sp ≠ 0) (ht : t ≠ 0)
    (hbt : mget 0 s.balances t < MOD) :
    (∃ s', ERC20.increase_allowance s o sp a = .ok s' ∧
       mget 0 s'.allowances (o, sp) = (mget 0 s.allowances (o, sp) + a) % MOD) ∧
    (∃ s', ERC20.mint_internal s t amt = .ok s' ∧
       s'.total_supply = (s.total_supply + amt) % MOD ∧
       mget 0 s'.balances t = (mget 0 s.balances t + amt) % MOD) ∧
    (mget 0 s.allowances (o, sp) < a →
       ERC20.decrease_allowance s o sp a =
         .error (.InsufficientAllowance sp (mget 0 s.allowances (o, sp)) a)) ∧
    (mget 0 s.balances t < amt →
       ERC20.burn_internal s t amt =
         .error (.InsufficientBalance t (mget 0 s.balances t) amt)) ∧
    (amt ≤ mget 0 s.balances t →
       ∃ s', ERC20.burn_internal s t amt = .ok s' ∧
         s'.total_supply = (s.total_supply + (MOD - amt % MOD)) % MOD ∧
         mget 0 s'.balances t = mget 0 s.balances t - amt) := by
  refine ⟨?_, ?_, fun h => ?_, fun h => ?_, fun hle => ?_⟩
  · have hres : ERC20.increase_allowance s o sp a =
        .ok { s with allowances :=
          (mset s.allowances (o, sp) (uadd (mget 0 s.allowances (o, sp)) a)) } := by
      simp [ERC20.increase_allowance, ERC20.approve_internal, ho, hsp]
    refine ⟨_, hres, ?_⟩
    rw [mget_mset_self]
    rfl
  · have hres : ERC20.mint_internal s t amt =
        .ok { s with total_supply := uadd s.total_supply amt,
                     balances := (mset s.balances t (uadd (mget 0 s.balances t) amt)) } := by
      simp [ERC20.mint_internal, ht]
    refine ⟨_, hres, rfl, ?_⟩
    rw [mget_mset_self]
    rfl
  · simp [ERC20.decrease_allowance, h]
  · simp [ERC20.burn_internal, ht, h]
  · have hres : ERC20.burn_internal s t amt =
        .ok { s with balances := (mset s.balances t (usub (mget 0 s.balances t) amt)),
                     total_supply := usub s.total_supply amt } := by
      simp [ERC20.burn_internal, ht, Nat.not_lt.mpr hle]
    refine ⟨_, hres, rfl, ?_⟩
    rw [mget_mset_self]
    exact usub_small hle hbt

/-- C7 witness: the amended theorem applied at the fresh state (increasing
the zero allowance of (1, 2) by 5) and at `c7bstate` (burning 2 from
address 2 while the supply is only 1, which wraps the stored supply). -/
theorem c7_wrapping_arithmetic_witness :
    (∃ s', ERC20.increase_allowance freshERC20 1 2 5 = .ok s' ∧
       mget 0 s'.allowances (1, 2) = (mget 0 freshERC20.allowances (1, 2) + 5) % MOD) ∧
    (∃ s', ERC20.burn_internal c7bstate 2 2 = .ok s' ∧
       s'.total_supply = (c7bstate.total_supply + (MOD - 2 % MOD)) % MOD ∧
       mget 0 s'.balances 2 = mget 0 c7bstate.balances 2 - 2) :=
  ⟨(c7_wrapping_arithmetic freshERC20 1 2 1 5 0 (by decide) (by decide) (by decide)
      (by decide)).1,
   (c7_wrapping_arithmetic c7bstate 1 2 2 5 2 (by decide) (by decide) (by decide)
      (by decide)).2.2.2.2 (by decide)⟩

/-- Spending against the unlimited sentinel leaves the state untouched, for
any sequence of spends. -/
theorem spendMany_unlimited (o sp : Nat) (s : ERC20State)
    (h : mget 0 s.allowances (o, sp) = UMAX) :
    ∀ vs : List Nat, spendMany o sp s vs = .ok s := by
  intro vs
  induction vs with
  | nil => rfl
  | cons v vs ih =>
    have hs : ERC20.spend_allowance s o sp v = .ok s := by
      simp [ERC20.spend_allowance, h]
    simp [spendMany, hs, ih]

/-- C5: when the allowance is the unlimited sentinel `U256::MAX`,
`spend_allowance` succeeds for every value and leaves the whole state (in
particular the allowance) unchanged, across any sequence of spends; when it
is below the sentinel it fails `InsufficientAllowance{spender, available,
required}` iff the allowance is less than `value`, and otherwise decrements
the allowance by exactly `value`. -/
theorem c5_spend_allowance_spec (s : ERC20State) (o sp v : Nat)
    (ha : mget 0 s.allowances (o, sp) < MOD) :
    (mget 0 s.allowances (o, sp) = UMAX →
       ERC20.spend_allowance s o sp v = .ok s ∧
       ∀ vs : List Nat, spendMany o sp s vs = .ok s) ∧
    (mget 0 s.allowances (o, sp) ≠ UMAX →
       (mget 0 s.allowances (o, sp) < v →
          ERC20.spend_allowance s o sp v =
            .error (.InsufficientAllowance sp (mget 0 s.allowances (o, sp)) v)) ∧
       (v ≤ mget 0 s.allowances (o, sp) →
          ∃ s', ERC20.spend_allowance s o sp v = .ok s' ∧
            mget 0 s'.allowances (o, sp) = mget 0 s.allowances (o, sp) - v ∧
            s'.balances = s.balances ∧ s'.total_supply = s.total_supply)) := by
  refine ⟨fun h => ⟨by simp [ERC20.spend_allowance, h], spendMany_unlimited o sp s h⟩,
    fun hne => ⟨fun hlt => by simp [ERC20.spend_allowance, hne, hlt], fun hv => ?_⟩⟩
  have hres : ERC20.spend_allowance s o sp v =
      .ok { s with allowances :=
        (mset s.allowances (o, sp) (usub (mget 0 s.allowances (o, sp)) v)) } := by
    simp [ERC20.spend_allowance, hne, Nat.not_lt.mpr hv]
  refine ⟨_, hres, ?_, rfl, rfl⟩
  rw [mget_mset_self, usub_small hv ha]

/-- C5 witness: the theorem applied at a state whose (1, 2) allowance is the
sentinel, with a single spend of 7 and the spend sequence [3, 4, 5]. -/
theorem c5_spend_allowance_spec_witness :
    ERC20.spend_allowance { freshERC20 with allowances := [((1, 2), UMAX)] } 1 2 7 =
      .ok { freshERC20 with allowances := [((1, 2), UMAX)] } ∧
    spendMany 1 2 { freshERC20 with allowances := [((1, 2), UMAX)] } [3, 4, 5] =
      .ok { freshERC20 with allowances := [((1, 2), UMAX)] } := by
  have H := (c5_spend_allowance_spec { freshERC20 with allowances := [((1, 2), UMAX)] }
    1 2 7 (by decide)).1 (by decide)
  exact ⟨H.1, H.2 [3, 4, 5]⟩

/-- C9: in any paused state, ERC-20 `transfer` / `transfer_from` / `burn`
and ERC-721 `transfer_from` / `burn` fail `EnforcedPause` for every caller;
ERC-721 `mint` and `pause` (both owner-gated) fail `EnforcedPause` for the
owner; `unpause` by the owner succeeds and clears the flag; and `unpause`
when not paused fails `ExpectedPause` — double-pause / double-unpause are
hard errors, not no-ops. -/
theorem c9_pause_gating (s20 : ERC20State) (s721 : ERC721State)
    (h20 : s20.paused = true) (h721 : s721.paused = true)
    (sender f t v tid : Nat) :
    ERC20.transfer s20 sender t v = .error .EnforcedPause ∧
    ERC20.transfer_from s20 sender f t v = .error .EnforcedPause ∧
    ERC20.burn s20 sender v = .error .EnforcedPause ∧
    ERC721.transfer_from s721 sender f t tid = .error .EnforcedPause ∧
    ERC721.burn s721 sender tid = .error .EnforcedPause ∧
    ERC721.mint s721 s721.owner t = .error .EnforcedPause ∧
    ERC20.pause s20 s20.owner = .error .EnforcedPause ∧
    ERC721.pause s721 s721.owner = .error .EnforcedPause ∧
    ERC20.unpause s20 s20.owner = .ok { s20 with paused := false } ∧
    ERC721.unpause s721 s721.owner = .ok { s721 with paused := false } ∧
    ERC20.unpause { s20 with paused := false } s20.owner = .error .ExpectedPause ∧
    ERC721.unpause { s721 with paused := false } s721.owner = .error .ExpectedPause := by
  refine ⟨?_, ?_, ?_, ?_, ?_, ?_, ?_, ?_, ?_, ?_, ?_, ?_⟩ <;>
    simp [ERC20.transfer, ERC20.transfer_from, ERC20.burn, ERC20.pause, ERC20.unpause,
          ERC721.transfer_from, ERC721.burn, ERC721.mint, ERC721.pause, ERC721.unpause,
          ERC20.require_not_paused, ERC20.require_paused, ERC20.require_owner,
          ERC721.require_not_paused, ERC721.require_paused, ERC721.require_owner,
          Bind.bind, Except.bind, h20, h721]

/-- C9 witness: the theorem applied at concrete paused states (owner 10),
with caller 5 for the ungated operations. -/
theorem c9_pause_gating_witness :
    ERC20.transfer { freshERC20 with owner := 10, paused := true } 5 2 3 =
      .error .EnforcedPause ∧
    ERC20.unpause { freshERC20 with owner := 10, paused := true } 10 =
      .ok { freshERC20 with owner := 10, paused := false } := by
  have H := c9_pause_gating { freshERC20 with owner := 10, paused := true }
    { freshERC721 with owner := 10, paused := true } rfl rfl 5 1 2 3 1
  exact ⟨H.1, H.2.2.2.2.2.2.2.2.1⟩

/-- C4: for every public operation of either contract and every starting
state, if the operation returns an error then the storage state observable
after the call is exactly the pre-call state (the host reverts the call's
writes; see `E20Op.post` / `E721Op.post`). -/
theorem c4_error_leaves_storage_unchanged (op20 : E20Op) (op721 : E721Op)
    (s20 : ERC20State) (s721 : ERC721State) :
    (∀ e, op20.exec s20 = .error e → E20Op.post op20 s20 = s20) ∧
    (∀ e, op721.exec s721 = .error e → E721Op.post op721 s721 = s721) := by
  constructor
  · intro e h
    unfold E20Op.post
    rw [h]
  · intro e h
    unfold E721Op.post
    rw [h]

/-- C4 witness: a non-owner's `pause` call fails `UnauthorizedAccount` on
both contracts and leaves the observable state unchanged. -/
theorem c4_error_leaves_storage_unchanged_witness :
    E20Op.post (.pause 5) freshERC20 = freshERC20 ∧
    E721Op.post (.pause 5) freshERC721 = freshERC721 := by
  have H := c4_error_leaves_storage_unchanged (.pause 5) (.pause 5) freshERC20 freshERC721
  exact ⟨H.1 (.UnauthorizedAccount 5) (by decide), H.2 (.UnauthorizedAccount 5) (by decide)⟩

theorem idsFrom_length (a n : Nat) : (idsFrom a n).length = n := by
  induction n generalizing a with
  | zero => rfl
  | succ n ih => simp [idsFrom, ih]

theorem idsFrom_eq_map (a n : Nat) :
    idsFrom a n = (List.range n).map (fun i => a + i) := by
  induction n generalizing a with
  | zero => rfl
  | succ n ih =>
    rw [List.range_succ_eq_map, List.map_cons, List.map_map]
    simp only [idsFrom, Nat.add_zero, List.cons.injEq]
    refine ⟨trivial, ?_⟩
    rw [ih]
    congr 1
    funext i
    simp [Function.comp]
    omega

/-- States reached by every mutating step of the fungible ledger preserve
the strengthened conservation invariant. -/
theorem reach20_inv (s : ERC20State) (h : Reach20 s) : Inv20 s := by
  induction h with
  | base =>
    refine ⟨MOD_pos, fun k => ?_, ?_⟩
    · exact MOD_pos
    · rfl
  | mint s toAddr a s' ha hs hok ih =>
    obtain ⟨hS, hB, hC⟩ := ih
    by_cases ht : toAddr = 0
    · simp [ERC20.mint_internal, ht] at hok
    · simp only [ERC20.mint_internal, if_neg ht, Except.ok.injEq] at hok
      subst hok
      refine ⟨uadd_lt _ _, fun k => ?_, ?_⟩
      · by_cases hk : k = toAddr
        · subst hk
          rw [mget_mset_self]
          exact uadd_lt _ _
        · rw [mget_mset_ne _ toAddr k _ _ (fun hh => hk hh.symm)]
          exact hB k
      · have hm := msum_mset s.balances toAddr (uadd (mget 0 s.balances toAddr) a)
        have e1 : Nat.ModEq MOD
            (msum (mset s.balances toAddr (uadd (mget 0 s.balances toAddr) a)) +
              mget 0 s.balances toAddr)
            (msum s.balances + (mget 0 s.balances toAddr + a)) := by
          rw [hm]
          exact Nat.ModEq.add_left _ (Nat.mod_modEq _ _)
        have e2 : Nat.ModEq MOD
            (msum s.balances + (mget 0 s.balances toAddr + a))
            (s.total_supply + (mget 0 s.balances toAddr + a)) :=
          hC.add_right _
        have e3 := e1.trans e2
        have e4 : s.total_supply + (mget 0 s.balances toAddr + a) =
            (s.total_supply + a) + mget 0 s.balances toAddr := by omega
        rw [e4] at e3
        have e5 := Nat.ModEq.add_right_cancel' _ e3
        exact e5.trans (Nat.mod_modEq (s.total_supply + a) MOD).symm
  | burn s fromAddr a s' ha hs hok ih =>
    obtain ⟨hS, hB, hC⟩ := ih
    by_cases hf : fromAddr = 0
    · simp [ERC20.burn_internal, hf] at hok
    · by_cases hlt : mget 0 s.balances fromAddr < a
      · simp [ERC20.burn_internal, hf, hlt] at hok
      · simp only [ERC20.burn_internal, if_neg hf, if_neg hlt, Except.ok.injEq] at hok
        subst hok
        have hba : a ≤ mget 0 s.balances fromAddr := Nat.not_lt.mp hlt
        refine ⟨usub_lt _ _, fun k => ?_, ?_⟩
        · by_cases hk : k = fromAddr
          · subst hk
            rw [mget_mset_self]
            exact usub_lt _ _
          · rw [mget_mset_ne _ fromAddr k _ _ (fun hh => hk hh.symm)]
            exact hB k
        · have hm := msum_mset s.balances fromAddr (usub (mget 0 s.balances fromAddr) a)
          rw [usub_small hba (hB fromAddr)] at hm
          have hle := mget_le_msum s.balances fromAddr
          have hkey : msum (mset s.balances fromAddr (mget 0 s.balances fromAddr - a)) + a =
              msum s.balances := by omega
          have ha' : a % MOD = a := Nat.mod_eq_of_lt ha
          have u1 : Nat.ModEq MOD (usub s.total_supply a)
              (s.total_supply + (MOD - a)) := by
            unfold usub
            rw [ha']
            exact Nat.mod_modEq _ _
          have u2 := u1.add_right a
          have u3 : s.total_supply + (MOD - a) + a = s.total_supply + MOD := by
            have : a ≤ MOD := le_of_lt ha
            omega
          rw [u3] at u2
          have u4 : Nat.ModEq MOD (usub s.total_supply a + a) s.total_supply :=
            u2.trans (Nat.add_mod_right s.total_supply MOD)
          have c1 : Nat.ModEq MOD
              (msum (mset s.balances fromAddr (mget 0 s.balances fromAddr - a)) + a)
              s.total_supply := by
            rw [hkey]
            exact hC
          have hcan := Nat.ModEq.add_right_cancel' a (c1.trans u4.symm)
          have hrw : (mset s.balances fromAddr
              (usub (mget 0 s.balances fromAddr) a)) =
              (mset s.balances fromAddr (mget 0 s.balances fromAddr - a)) := by
            rw [usub_small hba (hB fromAddr)]
          rw [hrw]
          exact hcan
  | tr s f t v s' hv hs hok ih =>
    obtain ⟨hS, hB, hC⟩ := ih
    by_cases hf : f = 0
    · simp [ERC20.transfer_internal, hf] at hok
    · by_cases ht : t = 0
      · simp [ERC20.transfer_internal, hf, ht] at hok
      · by_cases hlt : mget 0 s.balances f < v
        · simp [ERC20.transfer_internal, hf, ht, hlt] at hok
        · simp only [ERC20.transfer_internal, if_neg hf, if_neg ht, if_neg hlt,
            Except.ok.injEq] at hok
          subst hok
          have hfv : v ≤ mget 0 s.balances f := Nat.not_lt.mp hlt
          refine ⟨hS, fun k => ?_, ?_⟩
          · by_cases hk : k = t
            · subst hk
              rw [mget_mset_self]
              exact uadd_lt _ _
            · rw [mget_mset_ne _ t k _ _ (fun hh => hk hh.symm)]
              by_cases hk2 : k = f
              · subst hk2
                rw [mget_mset_self]
                exact usub_lt _ _
              · rw [mget_mset_ne _ f k _ _ (fun hh => hk2 hh.symm)]
                exact hB k
          · have hm1 := msum_mset s.balances f (usub (mget 0 s.balances f) v)
            rw [usub_small hfv (hB f)] at hm1
            have hle := mget_le_msum s.balances f
            have hkey1 : msum (mset s.balances f (mget 0 s.balances f - v)) + v =
                msum s.balances := by omega
            have hrw : (mset s.balances f (usub (mget 0 s.balances f) v)) =
                (mset s.balances f (mget 0 s.balances f - v)) := by
              rw [usub_small hfv (hB f)]
            rw [hrw]
            have hm2 := msum_mset (mset s.balances f (mget 0 s.balances f - v)) t
              (uadd (mget 0 (mset s.balances f (mget 0 s.balances f - v)) t) v)
            have e1 : Nat.ModEq MOD
                (msum (mset (mset s.balances f (mget 0 s.balances f - v)) t
                    (uadd (mget 0 (mset s.balances f (mget 0 s.balances f - v)) t) v)) +
                  mget 0 (mset s.balances f (mget 0 s.balances f - v)) t)
                (msum (mset s.balances f (mget 0 s.balances f - v)) +
                  (mget 0 (mset s.balances f (mget 0 s.balances f - v)) t + v)) := by
              rw [hm2]
              exact Nat.ModEq.add_left _ (Nat.mod_modEq _ _)
            have e2 : msum (mset s.balances f (mget 0 s.balances f - v)) +
                (mget 0 (mset s.balances f (mget 0 s.balances f - v)) t + v) =
                msum s.balances + mget 0 (mset s.balances f (mget 0 s.balances f - v)) t := by
              omega
            rw [e2] at e1
            have e3 := Nat.ModEq.add_right_cancel' _ e1
            exact e3.trans hC

/-- C3 (amended): for every state reachable by any sequence of mint, burn
and transfer operations, the sum of all balances is congruent to
`total_supply` modulo 2^256 (the stored supply equals the sum reduced mod
2^256); exact equality holds until an addition wraps, and can fail after
one (see the counterexample). -/
theorem c3_conservation_modulo (s : ERC20State) (h : Reach20 s) :
    msum s.balances % MOD = s.total_supply := by
  obtain ⟨hS, _, hC⟩ := reach20_inv s h
  have := hC
  unfold Nat.ModEq at this
  rw [this]
  exact Nat.mod_eq_of_lt hS

/-- C3 witness: the amended theorem applied to the reachable state obtained
by minting 5 tokens to address 1 from the empty ledger. -/
theorem c3_conservation_modulo_witness :
    msum ({ freshERC20 with total_supply := 5, balances := [(1, 5)] } : ERC20State).balances % MOD =
      ({ freshERC20 with total_supply := 5, balances := [(1, 5)] } : ERC20State).total_supply :=
  c3_conservation_modulo _
    (Reach20.mint freshERC20 1 5 _ (by decide) Reach20.base (by decide))

/-- C8 counterexample: on a freshly initialized collection (unlimited
supply), the owner's `mint_batch(to = 1, count = 2^32)` succeeds with the
empty id list — it performs zero mints, not `2^32`, because
`count.try_into().unwrap_or(0)` truncates counts outside the 32-bit `usize`
range of the wasm32 target to zero iterations. -/
theorem c8_huge_count_mints_nothing :
    ERC721.mint_batch c8state 10 1 (2 ^ 32) = .ok ([], c8state) ∧
    ([] : List Nat).length ≠ 2 ^ 32 :=
  ⟨by decide, by decide⟩

/-- A successful single internal mint: field-level effects. -/
theorem mint_internal_fields (s : ERC721State) (t tid : Nat) (ht : t ≠ 0)
    (hb : mget 0 s.balances t + 1 < MOD) (hS : s.total_supply + 1 < MOD) :
    ∃ s', ERC721.mint_internal s t tid = .ok s' ∧
      s'.next_token_id = s.next_token_id ∧
      s'.total_supply = s.total_supply + 1 ∧
      mget 0 s'.balances t = mget 0 s.balances t + 1 ∧
      s'.max_supply = s.max_supply ∧ s'.owner = s.owner ∧ s'.paused = s.paused := by
  have hres : ERC721.mint_internal s t tid = .ok (ERC721.add_token_to_owner_enumeration
      { s with owners := mset s.owners tid t,
               balances := (mset s.balances t (uadd (mget 0 s.balances t) 1)),
               total_supply := uadd s.total_supply 1 } t tid) := by
    simp [ERC721.mint_internal, ht]
  refine ⟨_, hres, rfl, ?_, ?_, rfl, rfl, rfl⟩
  · exact uadd_small hS
  · simp only [ERC721.add_token_to_owner_enumeration]
    rw [mget_mset_self]
    exact uadd_small hb

/-- The `mint_batch` loop run for `n` iterations: returns the `n`
consecutive ids starting at `next_token_id` and advances the counter,
supply and recipient balance by `n`. -/
theorem mint_batch_loop_fields (toAddr : Nat) (ht : toAddr ≠ 0) :
    ∀ (n : Nat) (s : ERC721State),
      s.next_token_id + n < MOD →
      s.total_supply + n < MOD →
      mget 0 s.balances toAddr + n < MOD →
      ∃ s', ERC721.mint_batch_loop toAddr n s =
          .ok (idsFrom s.next_token_id n, s') ∧
        s'.next_token_id = s.next_token_id + n ∧
        s'.total_supply = s.total_supply + n ∧
        mget 0 s'.balances toAddr = mget 0 s.balances toAddr + n := by
  intro n
  induction n with
  | zero =>
    intro s h1 h2 h3
    exact ⟨s, rfl, by omega, by omega, by omega⟩
  | succ n ih =>
    intro s h1 h2 h3
    have hu : uadd s.next_token_id 1 = s.next_token_id + 1 := uadd_small (by omega)
    obtain ⟨s2, hs2, hnext2, hsup2, hbal2, _, _, _⟩ :=
      mint_internal_fields { s with next_token_id := uadd s.next_token_id 1 } toAddr
        s.next_token_id ht
        (show mget 0 s.balances toAddr + 1 < MOD by omega)
        (show s.total_supply + 1 < MOD by omega)
    have hnext2' : s2.next_token_id = s.next_token_id + 1 := by
      rw [hnext2]
      exact hu
    have hsup2' : s2.total_supply = s.total_supply + 1 := hsup2
    have hbal2' : mget 0 s2.balances toAddr = mget 0 s.balances toAddr + 1 := hbal2
    obtain ⟨s', hloop, hn, hsup, hbal⟩ := ih s2
      (by rw [hnext2']; omega) (by rw [hsup2']; omega) (by rw [hbal2']; omega)
    rw [hnext2'] at hloop
    refine ⟨s', ?_, by rw [hn, hnext2']; omega, by rw [hsup, hsup2']; omega,
      by rw [hbal, hbal2']; omega⟩
    show (match ERC721.mint_internal { s with next_token_id := uadd s.next_token_id 1 }
        toAddr s.next_token_id with
      | Except.error e => Except.error e
      | Except.ok s2 =>
        match ERC721.mint_batch_loop toAddr n s2 with
        | Except.error e => Except.error e
        | Except.ok (ids, s3) => Except.ok (s.next_token_id :: ids, s3)) =
      Except.ok (idsFrom s.next_token_id (n + 1), s')
    simp only [hs2, hloop, idsFrom]

/-- C8 (amended): for the owner's `mint_batch(to, count)` on an unpaused
state with non-zero `to`, a `count` in the wasm32 `usize` range (`< 2^32`;
larger counts truncate to zero iterations, see the counterexample) and no
U256 overflow: the whole batch fails `MaxSupplyReached{maxSupply}` iff
`max_supply > 0` and `total_supply + count > max_supply`, and otherwise it
performs exactly `count` single mints, returning the `count` consecutive
ids starting at the current `next_token_id` and incrementing the
recipient's balance and the total supply by `count`. -/
theorem c8_mint_batch_spec (s : ERC721State) (toAddr count : Nat)
    (ht : toAddr ≠ 0) (hp : s.paused = false) (hcnt : count < 2 ^ 32)
    (h1 : s.next_token_id + count < MOD) (h2 : s.total_supply + count < MOD)
    (h3 : mget 0 s.balances toAddr + count < MOD) :
    (0 < s.max_supply ∧ s.max_supply < s.total_supply + count →
       ERC721.mint_batch s s.owner toAddr count =
         .error (.MaxSupplyReached s.max_supply)) ∧
    (¬ (0 < s.max_supply ∧ s.max_supply < s.total_supply + count) →
       ∃ s', ERC721.mint_batch s s.owner toAddr count =
           .ok (idsFrom s.next_token_id count, s') ∧
         (idsFrom s.next_token_id count).length = count ∧
         s'.next_token_id = s.next_token_id + count ∧
         s'.total_supply = s.total_supply + count ∧
         mget 0 s'.balances toAddr = mget 0 s.balances toAddr + count) := by
  have hadd : uadd s.total_supply count = s.total_supply + count := uadd_small h2
  constructor
  · intro hc
    simp [ERC721.mint_batch, ERC721.require_owner, ERC721.require_not_paused,
      Bind.bind, Except.bind, hp, hadd, hc]
  · intro hc
    obtain ⟨s', hloop, hn, hsup, hbal⟩ := mint_batch_loop_fields toAddr ht count s h1 h2 h3
    refine ⟨s', ?_, idsFrom_length _ _, hn, hsup, hbal⟩
    simp only [ERC721.mint_batch, ERC721.require_owner, ERC721.require_not_paused,
      Bind.bind, Except.bind, hp, hadd, ne_eq, not_true_eq_false, if_false,
      Bool.false_eq_true, if_neg hc, if_pos hcnt]
    exact hloop

/-- C8 witness: the amended theorem applied on the freshly initialized
collection with `count = 2`: both ids 1 and 2 are minted to address 1. -/
theorem c8_mint_batch_spec_witness :
    ∃ s', ERC721.mint_batch c8state c8state.owner 1 2 =
        .ok (idsFrom c8state.next_token_id 2, s') ∧
      (idsFrom c8state.next_token_id 2).length = 2 ∧
      s'.next_token_id = c8state.next_token_id + 2 ∧
      s'.total_supply = c8state.total_supply + 2 ∧
      mget 0 s'.balances 1 = mget 0 c8state.balances 1 + 2 :=
  (c8_mint_batch_spec c8state 1 2 (by decide) (by decide) (by decide)
    (by decide) (by decide) (by decide)).2 (by decide)
